import Mathlib

/-!
Verification of the expense-interpretation pipeline of `src/app.py`
(WhatsApp expense bot).

The pure core of `app.py` is shallowly embedded below: Python strings are
`String`/`List Char`, `datetime.date` values are rata-die day numbers
(`Int`) rendered through `isoformat`, Python floats are `ℚ` (every number
the pipeline manipulates is decimal), dict-shaped model output is the
structure `ModelData`, and the two network collaborators (OpenAI call,
Google-Sheets append) are `Except`-valued inputs.  Unicode case mapping is
embedded for the alphabet the program actually uses (ASCII plus the Spanish
accented letters); `re` patterns are compiled by hand into scanners with
Python's leftmost/greedy backtracking semantics.
-/

namespace App

/-! ## Characters: Python `str.lower`, `str.upper`-of-`capitalize`, `\s`, `\w`, `\d` -/

/-- Python whitespace as used by `str.split`/`str.strip` and by `\s`
(ASCII range; the messages involved carry no exotic spaces). -/
def isPySpace (c : Char) : Bool :=
  c = ' ' || c = '\t' || c = '\n' || c = '\r' || c = '\x0b' || c = '\x0c'

/-- The case-mapping table of the embedded alphabet: each character
`str.lower` changes, with its lowercase image (ASCII uppercase plus the
Spanish accented capitals). -/
def lowerTable : List (Char × Char) :=
  [('A', 'a'), ('B', 'b'), ('C', 'c'), ('D', 'd'), ('E', 'e'), ('F', 'f'),
   ('G', 'g'), ('H', 'h'), ('I', 'i'), ('J', 'j'), ('K', 'k'), ('L', 'l'),
   ('M', 'm'), ('N', 'n'), ('O', 'o'), ('P', 'p'), ('Q', 'q'), ('R', 'r'),
   ('S', 's'), ('T', 't'), ('U', 'u'), ('V', 'v'), ('W', 'w'), ('X', 'x'),
   ('Y', 'y'), ('Z', 'z'),
   ('Á', 'á'), ('É', 'é'), ('Í', 'í'), ('Ó', 'ó'), ('Ú', 'ú'), ('Ñ', 'ñ'),
   ('Ü', 'ü')]

/-- Python `str.lower` on one character of the embedded alphabet. -/
def pyLowerChar (c : Char) : Char :=
  match lowerTable.find? (fun p => p.1 == c) with
  | some p => p.2
  | none => c

/-- The inverse table: the title-casing Python's `str.capitalize`
applies, on the same alphabet. -/
def upperTable : List (Char × Char) :=
  lowerTable.map (fun p => (p.2, p.1))

/-- Title-casing of one character of the embedded alphabet. -/
def pyUpperChar (c : Char) : Char :=
  match upperTable.find? (fun p => p.1 == c) with
  | some p => p.2
  | none => c

/-- Digits, for `\d` (the messages carry ASCII digits). -/
def isDigitChar (c : Char) : Bool := '0' ≤ c && c ≤ '9'

/-- Word characters, for `\b`/`\w` on the embedded alphabet:
ASCII alphanumerics, underscore, and the Spanish accented letters. -/
def isWordChar (c : Char) : Bool :=
  ('a' ≤ c && c ≤ 'z') || ('A' ≤ c && c ≤ 'Z') || isDigitChar c || c = '_' ||
  c = 'á' || c = 'é' || c = 'í' || c = 'ó' || c = 'ú' || c = 'ñ' || c = 'ü' ||
  c = 'Á' || c = 'É' || c = 'Í' || c = 'Ó' || c = 'Ú' || c = 'Ñ' || c = 'Ü'

/-! ## Strings: list-level Python operations -/

/-- `map pyLowerChar`: Python `str.lower` on the embedded alphabet. -/
def pyLowerL (l : List Char) : List Char := l.map pyLowerChar

/-- Python `needle in hay` substring containment. -/
def inL (needle : List Char) : List Char → Bool
  | [] => needle.isEmpty
  | c :: cs => needle.isPrefixOf (c :: cs) || inL needle cs

/-- Maximal runs of characters satisfying `p`, via an accumulator holding
the current run reversed: the semantics of `re.findall` for a pattern
`[class]+`, and of `str.split` for non-whitespace.  Non-matching
characters are skipped, empty runs never emitted. -/
def runsOfGo (p : Char → Bool) (acc : List Char) : List Char → List (List Char)
  | [] => if acc = [] then [] else [acc.reverse]
  | c :: cs =>
    if p c then runsOfGo p (c :: acc) cs
    else if acc = [] then runsOfGo p [] cs
    else acc.reverse :: runsOfGo p [] cs

/-- Maximal runs of characters satisfying `p`, in order. -/
def runsOf (p : Char → Bool) (l : List Char) : List (List Char) :=
  runsOfGo p [] l

/-- Python `str.split()` with no argument: maximal runs of
non-whitespace characters, empty runs dropped. -/
def splitWs (l : List Char) : List (List Char) :=
  runsOf (fun d => !isPySpace d) l

/-- `" ".join(ws)`. -/
def joinWords : List (List Char) → List Char
  | [] => []
  | [w] => w
  | w :: ws => w ++ ' ' :: joinWords ws

/-- Python `str.strip()` (no argument: strip whitespace at both ends). -/
def stripWsL (l : List Char) : List Char :=
  ((l.dropWhile isPySpace).reverse.dropWhile isPySpace).reverse

/-- Python `str.strip(chars)` for an explicit character set. -/
def stripSetL (chars : List Char) (l : List Char) : List Char :=
  ((l.dropWhile (chars.contains ·)).reverse.dropWhile (chars.contains ·)).reverse

/-- Python `str.capitalize()`: first character title-cased,
the rest lower-cased. -/
def pyCapitalize (w : List Char) : List Char :=
  match w with
  | [] => []
  | c :: r => pyUpperChar c :: pyLowerL r

/-- `str.lower` on `String`. -/
def pyLowerStr (s : String) : String := ⟨pyLowerL s.data⟩

/-- `needle in hay` on `String`. -/
def inStr (needle hay : String) : Bool := inL needle.data hay.data

/-- `str.strip()` on `String`. -/
def pyStripStr (s : String) : String := ⟨stripWsL s.data⟩

/-! ## Dates

`datetime.date` values are embedded as rata-die day numbers (`Int`, day 0
being 0001-01-01 proleptic Gregorian shifted by the usual epoch constant);
`timedelta(days = n)` is integer addition, exactly the arithmetic
`fecha_relativa` performs.  `isoformat` renders a day number the way
`date.isoformat()` does. -/

/-- Days-to-civil conversion (standard Gregorian algorithm). -/
def civilFromDays (z0 : Int) : Int × Nat × Nat :=
  let z : Int := z0 + 719468
  let era : Int := (if 0 ≤ z then z else z - 146096) / 146097
  let doe : Nat := (z - era * 146097).toNat
  let yoe : Nat := (doe - doe / 1460 + doe / 36524 - doe / 146096) / 365
  let y : Int := (yoe : Int) + era * 400
  let doy : Nat := doe - (365 * yoe + yoe / 4 - yoe / 100)
  let mp : Nat := (5 * doy + 2) / 153
  let d : Nat := doy - (153 * mp + 2) / 5 + 1
  let m : Nat := if mp < 10 then mp + 3 else mp - 9
  (if m ≤ 2 then y + 1 else y, m, d)

/-- Left-pad a numeral with zeroes. -/
def padNum (width n : Nat) : String :=
  let s := toString n
  ⟨List.replicate (width - s.length) '0' ++ s.data⟩

/-- `date.isoformat()` of a day number: `YYYY-MM-DD`. -/
def isoformat (day : Int) : String :=
  let (y, m, d) := civilFromDays day
  padNum 4 y.toNat ++ "-" ++ padNum 2 m ++ "-" ++ padNum 2 d

/-- Length of a month, Gregorian. -/
def daysInMonth (y m : Nat) : Nat :=
  if m = 2 then (if y % 4 = 0 && (y % 100 ≠ 0 || y % 400 = 0) then 29 else 28)
  else if m = 4 || m = 6 || m = 9 || m = 11 then 30 else 31

/-- Does `datetime.fromisoformat` accept the string: the strict
`YYYY-MM-DD` shape with a valid calendar date (the only shape the model is
prompted to emit). -/
def fromisoOk (s : String) : Bool :=
  match s.data with
  | [y1, y2, y3, y4, '-', m1, m2, '-', d1, d2] =>
    [y1, y2, y3, y4, m1, m2, d1, d2].all isDigitChar &&
    (let y := (y1.toNat - 48) * 1000 + (y2.toNat - 48) * 100 +
              (y3.toNat - 48) * 10 + (y4.toNat - 48)
     let m := (m1.toNat - 48) * 10 + (m2.toNat - 48)
     let d := (d1.toNat - 48) * 10 + (d2.toNat - 48)
     1 ≤ m && m ≤ 12 && 1 ≤ d && d ≤ daysInMonth y m && 1 ≤ y)
  | _ => false

/-! ## `app.py` lines 50-51: `normalizar_desc` -/

/-- List-level `normalizar_desc`: lowercase, collapse whitespace runs,
trim (`" ".join((s or "").lower().split())`). -/
def normalizarL (l : List Char) : List Char := joinWords (splitWs (pyLowerL l))

/-- `normalizar_desc` (app.py lines 50-51). -/
def normalizar_desc (s : String) : String := ⟨normalizarL s.data⟩

/-! ## `app.py` lines 124-133: `detectar_pagado_por` -/

/-- `detectar_pagado_por` (app.py lines 124-133). -/
def detectar_pagado_por (texto : String) : String :=
  let t := pyLowerStr texto
  if inStr "lui" t || inStr "luisa" t then "Lui"
  else if inStr "dani" t || inStr "daniela" t then "Dani"
  else ""

/-! ## `app.py` lines 138-150: `detectar_metodo` -/

/-- `detectar_metodo` (app.py lines 138-150). -/
def detectar_metodo (texto : String) : String :=
  let t := pyLowerStr texto
  if inStr "transferencia" t || inStr "spei" t || inStr "transfer" t then "transferencia"
  else if inStr "efectivo" t then "efectivo"
  else if inStr "tarjeta" t || inStr "tdd" t || inStr "tdc" t then "tarjeta"
  else ""

/-! ## `app.py` lines 106-119: `fecha_relativa`

The Python function reads `datetime.now().date()` itself; the current date
is the explicit parameter `hoy` here (the orchestrator reads the clock once
per request). -/

/-- `fecha_relativa` (app.py lines 106-119). -/
def fecha_relativa (texto : String) (hoy : Int) : Option String :=
  let t := pyLowerStr texto
  if inStr "antes de ayer" t || inStr "antier" t then some (isoformat (hoy - 2))
  else if inStr "ayer" t then some (isoformat (hoy - 1))
  else if inStr "pasado mañana" t then some (isoformat (hoy + 2))
  else if inStr "mañana" t then some (isoformat (hoy + 1))
  else if inStr "hoy" t then some (isoformat hoy)
  else none

/-! ## Regex machinery

Each `re` pattern of `app.py` is compiled by hand into a scanner.
`re.search` semantics: try every start position left to right; at a
position, repetitions are greedy and backtrack.  The comments at each
scanner record why the greedy choice shown is the only viable one (or how
the residual backtracking is enumerated). -/

/-- `\b` when the pattern continues with a word character: the previous
character (None at the string start) must not be a word character. -/
def prevNonWord : Option Char → Bool
  | none => true
  | some c => !isWordChar c

/-- `\b` when the previous matched character is a word character: the next
character must be absent or not a word character. -/
def headNonWord : List Char → Bool
  | [] => true
  | c :: _ => !isWordChar c

/-- `\b` between an arbitrary previous character and the rest of the
subject (end of string counts as non-word). -/
def bBetween (prev : Char) (rest : List Char) : Bool :=
  match rest with
  | [] => isWordChar prev
  | c :: _ => isWordChar prev != isWordChar c

/-- `\b` at a match start whose first character may be a non-word
character (start of string counts as non-word). -/
def bStart (pv : Option Char) (first : Char) : Bool :=
  (match pv with | none => false | some p => isWordChar p) != isWordChar first

/-- Length of the leading digit run. -/
def digitRun (s : List Char) : Nat := (s.takeWhile isDigitChar).length

/-- Scan all start positions left to right, keeping the previous character
for boundary tests; first `some` wins (the leftmost match). -/
def posFind {α : Type} (f : Option Char → List Char → Option α) :
    Option Char → List Char → Option α
  | pv, [] => f pv []
  | pv, c :: cs => (f pv (c :: cs)).orElse (fun _ => posFind f (some c) cs)

/-- Scan all start positions left to right for a boolean matcher
(existence of a match). -/
def posAny (f : Option Char → List Char → Bool) : Option Char → List Char → Bool
  | pv, [] => f pv []
  | pv, c :: cs => f pv (c :: cs) || posAny f (some c) cs

/-- Case-insensitive literal match of a lowercase pattern at the head of
the subject (`re.IGNORECASE`). -/
def ciIsPrefix : List Char → List Char → Bool
  | [], _ => true
  | _ :: _, [] => false
  | p :: ps, c :: cs => (pyLowerChar c = p) && ciIsPrefix ps cs

/-- Greedy backtracking over the length of a captured `[class]+` run,
with the candidate run held reversed: its head is the group's last
character.  Try the current group first; when the continuation `cont`
(given that last character and the residual subject) rejects, move the
last character back in front of the residue and retry, until the group
would become empty (`none`). -/
def shrinkGreedyRev (cont : Char → List Char → Bool) :
    List Char → List Char → Option (List Char)
  | [], _ => none
  | c :: cs, rest =>
    if cont c rest then some (c :: cs).reverse
    else shrinkGreedyRev cont cs (c :: rest)

/-- Greedy backtracking over the length of a captured `[class]+` run:
try the full run `g` first, then successively shorter non-empty prefixes,
until `cont` (given the group's last character and what follows it)
accepts. -/
def shrinkGreedy (cont : Char → List Char → Bool)
    (g rest : List Char) : Option (List Char) :=
  shrinkGreedyRev cont g.reverse rest

/-! ## `app.py` lines 89-104: `texto_menciona_fecha` -/

/-- `MESES_ES` (app.py lines 89-92). -/
def MESES_ES : List String :=
  ["enero", "febrero", "marzo", "abril", "mayo", "junio",
   "julio", "agosto", "septiembre", "setiembre", "octubre", "noviembre", "diciembre"]

/-- Matcher for `\b\d{4}-\d{1,2}-\d{1,2}\b` at one position.  `\d{4}` is a
fixed count; each `\d{1,2}` is followed by `-` or by `\b`, and since a
digit is a word character, the only viable repetition count is the full
digit run, which must have length 1 or 2. -/
def p2At (pv : Option Char) (s : List Char) : Bool :=
  prevNonWord pv &&
  match s with
  | a :: b :: c :: d :: '-' :: r =>
    a.isDigit && b.isDigit && c.isDigit && d.isDigit &&
    (let n1 := digitRun r
     (n1 = 1 || n1 = 2) &&
     match r.drop n1 with
     | '-' :: r2 =>
       let n2 := digitRun r2
       (n2 = 1 || n2 = 2) && headNonWord (r2.drop n2)
     | _ => false)
  | _ => false

/-- Matcher for `\b\d{1,2}S\d{1,2}(S\d{2,4})?\b` (S a slash or dash separator) at one position.
As in `p2At` every `\d{i,j}` must consume its whole run; the optional
group is tried first (greedy) and, failing, dropped — in which case the
`\b` after the second run holds automatically when a separator follows
(a separator is not a word character). -/
def p3At (pv : Option Char) (s : List Char) : Bool :=
  prevNonWord pv &&
  (let n1 := digitRun s
   (n1 = 1 || n1 = 2) &&
   match s.drop n1 with
   | c :: r2 =>
     (c = '/' || c = '-') &&
     (let n2 := digitRun r2
      (n2 = 1 || n2 = 2) &&
      ((match r2.drop n2 with
        | c2 :: r3 =>
          (c2 = '/' || c2 = '-') &&
          (let n3 := digitRun r3
           (n3 = 2 || n3 = 3 || n3 = 4) && headNonWord (r3.drop n3))
        | [] => false) ||
       headNonWord (r2.drop n2)))
   | [] => false)

/-- The relative-date keywords of the alternation
`\b(hoy|ayer|antier|antes de ayer|mañana|pasado mañana)\b`. -/
def relKeywords : List (List Char) :=
  ["hoy", "ayer", "antier", "antes de ayer", "mañana", "pasado mañana"].map String.data

/-- Matcher for the relative-keyword alternation at one position (every
alternative starts and ends with a word character, so both boundaries
reduce to the neighbour not being a word character). -/
def p4At (pv : Option Char) (s : List Char) : Bool :=
  prevNonWord pv &&
  relKeywords.any (fun w => w.isPrefixOf s && headNonWord (s.drop w.length))

/-- `texto_menciona_fecha` (app.py lines 94-104). -/
def texto_menciona_fecha (texto : String) : Bool :=
  let t := pyLowerL texto.data
  MESES_ES.any (fun m => inL m.data t) ||
  posAny p2At none t ||
  posAny p3At none t ||
  posAny p4At none t

/-! ## `app.py` lines 155-175: `limpiar_descripcion` -/

/-- Head substitution for an anchored alternation
`^(alt1|alt2|...)\b` with `re.sub(..., "")`: Python tries the
alternatives in order (case-insensitively) and removes the first one that
is a prefix and is followed by a word boundary (every alternative ends in
a word character, so the boundary is the next character not being a word
character).  Unchanged when none matches. -/
def subAltHead (alts : List (List Char)) (d : List Char) : List Char :=
  match alts with
  | [] => d
  | w :: ws =>
    if ciIsPrefix w d && headNonWord (d.drop w.length) then d.drop w.length
    else subAltHead ws d

/-- The payer alternation of `limpiar_descripcion`
(`^(dani|daniela|lui|luisa)\b`, app.py line 159). -/
def payerAltsLimpiar : List (List Char) :=
  ["dani", "daniela", "lui", "luisa"].map String.data

/-- `prefijos` (app.py lines 161-165). -/
def prefijos : List (List Char) :=
  ["compra en ", "gasto en ", "pago en ", "pago a ", "pago de ",
   "servicio de ", "servicio ", "suscripción a ", "suscripcion a ",
   "recarga ", "recarga a ", "en "].map String.data

/-- The article prefixes of app.py line 171. -/
def articulos : List (List Char) :=
  ["el ", "la ", "los ", "las ", "un ", "una "].map String.data

/-- The cleaning core of `limpiar_descripcion` before re-capitalization:
payer-head removal with `.strip()`, then the two cascaded
strip-a-prefix loops (each prefix of the list is tested once, in order,
against the current value — a strip therefore exposes later prefixes to
stripping in the same pass, but not earlier ones). -/
def cleanCore (d : List Char) : List Char :=
  let d1 := stripWsL (subAltHead payerAltsLimpiar d)
  let d2 := prefijos.foldl
    (fun d p => if p.isPrefixOf d then stripWsL (d.drop p.length) else d) d1
  articulos.foldl
    (fun d p => if p.isPrefixOf d then stripWsL (d.drop p.length) else d) d2

/-- List-level `limpiar_descripcion`. -/
def limpiarL (l : List Char) : List Char :=
  joinWords ((splitWs (cleanCore (normalizarL l))).map pyCapitalize)

/-- `limpiar_descripcion` (app.py lines 155-175). -/
def limpiar_descripcion (desc : String) : String := ⟨limpiarL desc.data⟩

/-! ## `app.py` lines 180-193: `extraer_monto_regex` -/

/-- Value of a digit run. -/
def natOfDigits (ds : List Char) : Nat :=
  ds.foldl (fun a c => a * 10 + (c.toNat - 48)) 0

/-- `float` value of `intpart.fracpart`. -/
def ratOfParts (ds fs : List Char) : ℚ :=
  (natOfDigits ds : ℚ) + (natOfDigits fs : ℚ) / (10 ^ fs.length : ℚ)

/-- Matcher for `\b(\d+(?:\.\d+)?)\b` at one position.  `\d+` must take
its whole run (a shorter choice leaves digit against digit, never a
boundary).  The optional fraction is greedy: taken in full when a dot and
digits follow and the trailing boundary holds; when that boundary fails
(a word character follows the fraction) the group backtracks to the bare
integer, whose trailing boundary at the dot always holds.  With no viable
fraction the trailing boundary is checked after the integer run. -/
def montoAt (pv : Option Char) (s : List Char) : Option ℚ :=
  if !prevNonWord pv then none
  else
    let ds := s.takeWhile isDigitChar
    if ds.isEmpty then none
    else
      match s.drop ds.length with
      | '.' :: r =>
        let fs := r.takeWhile isDigitChar
        if fs.isEmpty then some (natOfDigits ds : ℚ)
        else if headNonWord (r.drop fs.length) then some (ratOfParts ds fs)
        else some (natOfDigits ds : ℚ)
      | rest => if headNonWord rest then some (natOfDigits ds : ℚ) else none

/-- `extraer_monto_regex` (app.py lines 180-193): commas deleted, then the
first match of `\b(\d+(?:\.\d+)?)\b` parsed as a float, `0.0` when there
is no match. -/
def extraer_monto_regex (texto : String) : ℚ :=
  let t := texto.data.filter (fun c => c ≠ ',')
  match posFind montoAt none t with
  | some q => q
  | none => 0

/-! ## `app.py` lines 196-208: `extraer_tarjeta_regex` -/

/-- The character class `[A-Za-zÁÉÍÓÚÑáéíóúñ0-9&\-_\.]` shared by the
card and merchant patterns. -/
def isTarjClass (c : Char) : Bool :=
  ('A' ≤ c && c ≤ 'Z') || ('a' ≤ c && c ≤ 'z') || isDigitChar c ||
  c = 'Á' || c = 'É' || c = 'Í' || c = 'Ó' || c = 'Ú' || c = 'Ñ' ||
  c = 'á' || c = 'é' || c = 'í' || c = 'ó' || c = 'ú' || c = 'ñ' ||
  c = '&' || c = '-' || c = '_' || c = '.'

/-- The same class with a space, as used by the merchant patterns. -/
def isMerchClass (c : Char) : Bool := isTarjClass c || c = ' '

/-- Matcher for `tarjeta\s+([class]+)` at one position (no boundaries in
this pattern).  `\s+` and the class are disjoint, so the whitespace run
and the captured run are both forced maximal. -/
def tarjeta1At (_pv : Option Char) (s : List Char) : Option (List Char) :=
  if ciIsPrefix "tarjeta".data s then
    let r := s.drop 7
    let nws := (r.takeWhile isPySpace).length
    if nws = 0 then none
    else
      let g := (r.drop nws).takeWhile isTarjClass
      if g.isEmpty then none else some g
  else none

/-- Matcher for `\bcon\s+([class]+)\b` at one position.  The class has no
whitespace, so `\s+` and the captured run are maximal; the trailing `\b`
backtracks over the run length (`shrinkGreedy` with the boundary test). -/
def con2At (pv : Option Char) (s : List Char) : Option (List Char) :=
  if prevNonWord pv && ciIsPrefix "con".data s then
    let r := s.drop 3
    let nws := (r.takeWhile isPySpace).length
    if nws = 0 then none
    else
      let r2 := r.drop nws
      let run := r2.takeWhile isTarjClass
      if run.isEmpty then none
      else shrinkGreedy (fun lst rest => bBetween lst rest) run (r2.drop run.length)
  else none

/-- `extraer_tarjeta_regex` (app.py lines 196-208). -/
def extraer_tarjeta_regex (texto : String) : String :=
  let t := texto.data
  match posFind tarjeta1At none t with
  | some g => ⟨stripWsL g⟩
  | none =>
    match posFind con2At none t with
    | some g =>
      if !inL "transfer".data (pyLowerL g) && !inL "efectivo".data (pyLowerL g)
      then ⟨stripWsL g⟩ else ""
    | none => ""

/-! ## `app.py` lines 211-253: `extraer_merchant_regex` -/

/-- The payer names checked against normalized candidates
(app.py lines 231, 241, 249). -/
def payersNorm : List String := ["dani", "daniela", "lui", "luisa"]

/-- The stopword alternation of the split on app.py line 228. -/
def stopAlts : List (List Char) :=
  ["con", "por", "para", "el", "la", "los", "las"].map String.data

/-- `re.split(r"\b(con|por|para|el|la|los|las)\b", candidate, IGNORECASE)[0]`:
the text before the leftmost boundary-delimited stopword (the whole text
when none occurs).  Only the match position matters for element 0. -/
def splitStopGo (pv : Option Char) (acc : List Char) (s : List Char) : List Char :=
  match s with
  | [] => acc.reverse
  | c :: cs =>
    if prevNonWord pv &&
       stopAlts.any (fun w => ciIsPrefix w (c :: cs) && headNonWord ((c :: cs).drop w.length))
    then acc.reverse
    else splitStopGo (some c) (c :: acc) cs

/-- Whitespace-run lengths `k, k-1, ..., 1` tried greedily for `\s+`
followed by a capture that may itself start with a space. -/
def enWsTry (r : List Char) : Nat → Option (List Char)
  | 0 => none
  | Nat.succ k =>
    let g := (r.drop (k + 1)).takeWhile isMerchClass
    if g.isEmpty then enWsTry r k else some g

/-- Matcher for `\ben\s+([class+space]+)` at one position: nothing follows
the greedy capture, so it is the maximal class run; `\s+` overlaps the
class on a space, so the whitespace run backtracks from maximal down
until at least one class character follows. -/
def enAt (pv : Option Char) (s : List Char) : Option (List Char) :=
  if prevNonWord pv && ciIsPrefix "en".data s then
    let r := s.drop 2
    enWsTry r (r.takeWhile isPySpace).length
  else none

/-- The tail `\s+con\s+tarjeta\b` of the third merchant pattern: both
literals start with a letter, disjoint from whitespace, so the whitespace
runs are forced maximal. -/
def conTarjTail (rest : List Char) : Bool :=
  let m1 := (rest.takeWhile isPySpace).length
  (m1 ≠ 0) &&
  (let r1 := rest.drop m1
   ciIsPrefix "con".data r1 &&
   (let r2 := r1.drop 3
    let m2 := (r2.takeWhile isPySpace).length
    (m2 ≠ 0) &&
    (let r3 := r2.drop m2
     ciIsPrefix "tarjeta".data r3 && headNonWord (r3.drop 7))))

/-- Matcher for `\b([class+space]+)\s+con\s+tarjeta\b` at one position:
the leading `\b` constrains the group's first character only; the greedy
group backtracks from the maximal class run until the tail matches. -/
def conTarjAt (pv : Option Char) (s : List Char) : Option (List Char) :=
  match s with
  | [] => none
  | c :: _ =>
    if bStart pv c then
      let run := s.takeWhile isMerchClass
      if run.isEmpty then none
      else shrinkGreedy (fun _ rest => conTarjTail rest) run (s.drop run.length)
    else none

/-- The payer alternation of the `con tarjeta` branch
(`^(lui|luisa|dani|daniela)\b`, app.py line 239 — note the order differs
from the one in `limpiar_descripcion`). -/
def payerAltsMerch : List (List Char) :=
  ["lui", "luisa", "dani", "daniela"].map String.data

/-- `extraer_merchant_regex` (app.py lines 211-253). -/
def extraer_merchant_regex (texto : String) : String :=
  let t := stripWsL texto.data
  if posAny (fun pv s =>
       prevNonWord pv && ciIsPrefix "renta".data s && headNonWord (s.drop 5)) none t
  then "Renta"
  else
    match posFind enAt none t with
    | some cand =>
      let c1 := stripSetL " .,-".data (splitStopGo none [] cand)
      if payersNorm.contains ⟨normalizarL c1⟩ then "" else ⟨limpiarL c1⟩
    | none =>
      match posFind conTarjAt none t with
      | some cand =>
        let c1 := stripSetL " .,-".data cand
        let c2 := stripWsL (subAltHead payerAltsMerch c1)
        if payersNorm.contains ⟨normalizarL c2⟩ then "" else ⟨limpiarL c2⟩
      | none =>
        match (runsOf isTarjClass t).getLast? with
        | some w =>
          if payersNorm.contains ⟨pyLowerL w⟩ then "" else ⟨limpiarL w⟩
        | none => ""

/-! ## `app.py` lines 53-82: `cargar_catalogo`

The worksheet fetch is the external collaborator; `cargar_catalogo` below
is the body of the `try` block given the fetched rows (on a fetch failure
the Python code sets the catalog to `{}`, i.e. the constant `none`
lookup).  The dict `tmp` is embedded as a lookup function built by a left
fold, so a later row's assignment overwrites an earlier one's. -/

/-- One step of the dict build: `tmp[desc] = (categoria, tipo)` for a row
with at least 3 cells and a non-empty normalized key. -/
def catStep (acc : String → Option (String × String)) (fila : List String) :
    String → Option (String × String) :=
  if fila.length < 3 then acc
  else
    let desc := normalizar_desc (fila[0]?.getD "")
    let categoria := pyStripStr (fila[1]?.getD "")
    let tipo := pyStripStr (fila[2]?.getD "")
    if desc = "" then acc
    else fun k => if k = desc then some (categoria, tipo) else acc k

/-- The dict built from data rows. -/
def buildCatalogo (filas : List (List String)) : String → Option (String × String) :=
  filas.foldl catStep (fun _ => none)

/-- `cargar_catalogo` (app.py lines 53-82) given the fetched rows: skip
the header row when its cells, lowercased and joined with spaces, contain
`"descripcion"`; then build the dict. -/
def cargar_catalogo (filas : List (List String)) : String → Option (String × String) :=
  let filas :=
    match filas with
    | [] => filas
    | f0 :: _ =>
      if inStr "descripcion" ⟨joinWords (f0.map (fun c => pyLowerL c.data))⟩
      then filas.drop 1 else filas
  buildCatalogo filas

/-! ## `app.py` lines 258-364: `interpretar_gasto`

The OpenAI call returns a raw completion (or throws); `json.loads` is the
external JSON parser.  The parsed dict is the structure `ModelData`; its
`monto` entry can be any JSON value, embedded as `MontoVal`.  Everything
from line 300 on is deterministic post-processing, embedded as
`interpretar_gasto_post` over an explicit current date `hoy` and catalog
lookup. -/

/-- The `monto` entry of the model's JSON object. -/
inductive MontoVal where
  | num (q : ℚ)
  | str (s : String)
  | missing
deriving DecidableEq, Repr

/-- `float(s)` for the decimal strings the model emits: optional
whitespace, optional sign, digits with an optional fractional part
(a faithful subset of Python's float grammar; `none` = `ValueError`). -/
def pyFloatOfString (s : String) : Option ℚ :=
  let l := stripWsL s.data
  let (sign, l) : ℚ × List Char :=
    match l with
    | '-' :: r => (-1, r)
    | '+' :: r => (1, r)
    | r => (1, r)
  let ds := l.takeWhile isDigitChar
  match l.drop ds.length with
  | [] => if ds.isEmpty then none else some (sign * (natOfDigits ds : ℚ))
  | '.' :: fs =>
    if fs.all isDigitChar && !(ds.isEmpty && fs.isEmpty)
    then some (sign * ratOfParts ds fs)
    else none
  | _ => none

/-- `float(data.get("monto") or 0)` with the surrounding
`try/except → 0.0` (app.py lines 305-308): a missing/falsy entry gives 0,
a numeric entry its value, a string its parsed value or 0. -/
def coerceMonto : MontoVal → ℚ
  | .num q => q
  | .str s => if s = "" then 0 else (pyFloatOfString s).getD 0
  | .missing => 0

/-- The model's JSON object after `json.loads`: the fields
`interpretar_gasto` reads, `none` when the key is absent. -/
structure ModelData where
  fecha : Option String
  descripcion : Option String
  monto : MontoVal
  metodo : Option String
  tarjeta : Option String
deriving DecidableEq, Repr

/-- The values `metodo` is constrained to (app.py line 315). -/
def metodosValidos : List String := ["efectivo", "tarjeta", "transferencia", ""]

/-- Final `metodo` (app.py lines 310-316): normalize the model's value,
overwrite it whenever `detectar_metodo` fires, then constrain to the
valid vocabulary. -/
def finalMetodo (texto : String) (data : ModelData) : String :=
  let m0 := pyStripStr (pyLowerStr (data.metodo.getD ""))
  let mt := detectar_metodo texto
  let m1 := if mt ≠ "" then mt else m0
  if metodosValidos.contains m1 then m1 else ""

/-- Final `fecha` (app.py lines 318-333): today when the text mentions no
date; else the relative resolution when it fires; else the model's date
when present and parseable, today otherwise. -/
def finalFecha (texto : String) (hoy : Int) (data : ModelData) : String :=
  if !texto_menciona_fecha texto then isoformat hoy
  else
    match fecha_relativa texto hoy with
    | some rel => rel
    | none =>
      match data.fecha with
      | some s => if s ≠ "" then (if fromisoOk s then s else isoformat hoy) else isoformat hoy
      | none => isoformat hoy

/-- The values whose presence as the normalized cleaned description
triggers the merchant-regex fallback (app.py line 340). -/
def descripcionesVacias : List String := ["dani", "daniela", "lui", "luisa", ""]

/-- Final `descripcion` (app.py lines 301 and 338-341): the cleaned model
description, replaced by the regex extraction when it is empty or a payer
name. -/
def finalDescripcion (texto : String) (data : ModelData) : String :=
  let d1 := limpiar_descripcion (data.descripcion.getD "")
  if descripcionesVacias.contains (normalizar_desc d1)
  then extraer_merchant_regex texto else d1

/-- Final `monto` (app.py lines 305-308 and 343-344): the coerced model
amount, replaced by the regex extraction when it is zero. -/
def finalMonto (texto : String) (data : ModelData) : ℚ :=
  let m := coerceMonto data.monto
  if m = 0 then extraer_monto_regex texto else m

/-- Final `tarjeta` (app.py lines 302 and 346-348): the trimmed model
value, backfilled by the regex extraction when the text says "tarjeta"
and the model left it empty. -/
def finalTarjeta (texto : String) (data : ModelData) : String :=
  let t1 := pyStripStr (data.tarjeta.getD "")
  if inStr "tarjeta" (pyLowerStr texto) && t1 = ""
  then extraer_tarjeta_regex texto else t1

/-- The finalized expense record (the dict `interpretar_gasto` returns,
in the ledger's column shapes). -/
structure Gasto where
  fecha : String
  descripcion : String
  categoria : String
  tipo : String
  pagado_por : String
  monto : ℚ
  metodo : String
  tarjeta : String
deriving DecidableEq, Repr

/-- The deterministic part of `interpretar_gasto` (app.py lines 300-364):
everything after `json.loads` succeeded. -/
def interpretar_gasto_post (texto : String) (hoy : Int) (data : ModelData)
    (catalogo : String → Option (String × String)) : Gasto :=
  let descripcion := finalDescripcion texto data
  let desc_norm := normalizar_desc descripcion
  let ct := (catalogo desc_norm).getD ("otros", "otros")
  let ct :=
    if desc_norm = "renta" && ct.1 = "otros" && ct.2 = "otros"
    then ("Hogar", "Renta") else ct
  { fecha := finalFecha texto hoy data
    descripcion := descripcion
    categoria := ct.1
    tipo := ct.2
    pagado_por := detectar_pagado_por texto
    monto := finalMonto texto data
    metodo := finalMetodo texto data
    tarjeta := finalTarjeta texto data }

/-- `raw[start:end + 1] if (start != -1 and end != -1) else raw` with
`start = raw.find("{")`, `end = raw.rfind("}")` (app.py lines 294-296). -/
def extractJson (raw : String) : String :=
  let l := raw.data
  match l.findIdx? (· = '{'), (l.length - 1 - l.reverse.findIdx (· = '}')) with
  | some s, e =>
    if l.contains '}' then ⟨(l.take (e + 1)).drop s⟩ else raw
  | none, _ => raw

/-- `interpretar_gasto` (app.py lines 258-364).  `modelResult` is the
completion the OpenAI client returned, or the exception it threw;
`jsonParse` is `json.loads` restricted to the object shape the code
consumes, `none` meaning it raised.  Errors propagate as `Except.error`. -/
def interpretar_gasto (texto : String) (hoy : Int)
    (modelResult : Except Unit String) (jsonParse : String → Option ModelData)
    (catalogo : String → Option (String × String)) : Except Unit Gasto :=
  match modelResult with
  | .error e => .error e
  | .ok raw =>
    match jsonParse (extractJson raw) with
    | none => .error ()
    | some data => .ok (interpretar_gasto_post texto hoy data catalogo)

/-! ## `app.py` lines 367-428: `registrar_gasto` and the webhook -/

/-- A spreadsheet cell (the appended row mixes strings and the numeric
amount). -/
inductive Cell where
  | s (v : String)
  | n (v : ℚ)
deriving DecidableEq, Repr

/-- The row appended to "Gastos AI" (app.py lines 375-384):
fecha, descripcion, categoria, tipo, pagado_por, monto, metodo, tarjeta. -/
def filaOf (g : Gasto) : List Cell :=
  [.s g.fecha, .s g.descripcion, .s g.categoria, .s g.tipo,
   .s g.pagado_por, .n g.monto, .s g.metodo, .s g.tarjeta]

/-- `registrar_gasto` (app.py lines 367-387): no sheet connection raises;
an interpretation error propagates; otherwise the row is appended and the
record returned.  The ledger is the explicit list of committed rows. -/
def registrar_gasto (texto : String) (hoy : Int)
    (modelResult : Except Unit String) (jsonParse : String → Option ModelData)
    (catalogo : String → Option (String × String))
    (sheet : Option (List (List Cell))) : Except Unit (Gasto × List (List Cell)) :=
  match sheet with
  | none => .error ()
  | some rows =>
    match interpretar_gasto texto hoy modelResult jsonParse catalogo with
    | .error e => .error e
    | .ok g => .ok (g, rows ++ [filaOf g])

/-- The success reply of the webhook (app.py lines 405-420). -/
def mensajeExito (g : Gasto) : String :=
  "✅ Gasto registrado:\n" ++
  "• Fecha: " ++ g.fecha ++ "\n" ++
  "• Descripción: " ++ g.descripcion ++ "\n" ++
  "• Concepto: " ++ g.categoria ++ "\n" ++
  "• Tipo: " ++ g.tipo ++ "\n" ++
  (if g.pagado_por ≠ "" then "• Pagado por: " ++ g.pagado_por ++ "\n" else "") ++
  "• Monto: " ++ toString g.monto ++ "\n" ++
  "• Método: " ++ (if g.metodo ≠ "" then g.metodo else "N/A") ++ "\n" ++
  "• Tarjeta: " ++ (if g.tarjeta ≠ "" then g.tarjeta else "N/A")

/-- The generic failure reply (app.py line 426). -/
def mensajeError : String := "❌ Ocurrió un error al registrar el gasto."

/-- `webhook_whatsapp` (app.py lines 397-428) for one inbound message:
`try` the registration, answering with the summary on success and with
the single generic message on any exception; the resulting ledger state
is returned alongside (unchanged on failure). -/
def webhook_whatsapp (body : String) (hoy : Int)
    (modelResult : Except Unit String) (jsonParse : String → Option ModelData)
    (catalogo : String → Option (String × String))
    (sheet : Option (List (List Cell))) : String × Option (List (List Cell)) :=
  match registrar_gasto body hoy modelResult jsonParse catalogo sheet with
  | .ok (g, rows) => (mensajeExito g, some rows)
  | .error _ => (mensajeError, sheet)

/-! ## Concrete inputs used by witnesses and counterexamples -/

/-- The empty catalog (startup with an unreachable source). -/
def catalogoVacio : String → Option (String × String) := fun _ => none

/-- A typical model reply for a message without a date mention: the model
nonetheless proposes `"2020-01-01"`. -/
def mdlEjemplo : ModelData :=
  { fecha := some "2020-01-01", descripcion := some "Cafe",
    monto := .num 80, metodo := some "efectivo", tarjeta := some "" }

/-- A model reply claiming the card method while the text says transfer. -/
def mdlDiceTarjeta : ModelData :=
  { fecha := none, descripcion := some "Luz",
    monto := .num 150, metodo := some "tarjeta", tarjeta := some "" }

/-- A model reply with an empty card field. -/
def mdlSinTarjeta : ModelData :=
  { fecha := none, descripcion := some "Super",
    monto := .num 100, metodo := none, tarjeta := none }

/-- A model reply with an empty description. -/
def mdlSinDescripcion : ModelData :=
  { fecha := none, descripcion := none,
    monto := .num 10, metodo := none, tarjeta := none }

/-- A model reply proposing a negative amount. -/
def mdlMontoNegativo : ModelData :=
  { fecha := none, descripcion := some "Reembolso",
    monto := .num (-50), metodo := none, tarjeta := none }

/-- A `json.loads` that always raises (no parseable object). -/
def jsonParseFalla : String → Option ModelData := fun _ => none

/-!
# Theorems

One theorem per claim of `CLAIMS.json`, in claim order, each preceded by
the witnesses/counterexamples it needs.
-/

/-- C1.  For every input text for which `texto_menciona_fecha` returns
false, the date of the finalized record equals today's date, regardless
of the date value proposed by the model (app.py lines 320-321 assign
`hoy` before the model's `fecha` is ever consulted). -/
theorem c1_fecha_hoy_sin_mencion (texto : String) (hoy : Int) (data : ModelData)
    (catalogo : String → Option (String × String))
    (h : texto_menciona_fecha texto = false) :
    (interpretar_gasto_post texto hoy data catalogo).fecha = isoformat hoy := by
  simp [interpretar_gasto_post, finalFecha, h]

/-- Witness for C1: "gaste 80 en cafe" mentions no date, and the record
built from a model reply proposing `"2020-01-01"` is dated today. -/
theorem c1_fecha_hoy_sin_mencion_witness :
    texto_menciona_fecha "gaste 80 en cafe" = false ∧
    (interpretar_gasto_post "gaste 80 en cafe" 20249 mdlEjemplo catalogoVacio).fecha =
      isoformat 20249 :=
  ⟨by decide, c1_fecha_hoy_sin_mencion "gaste 80 en cafe" 20249 mdlEjemplo
    catalogoVacio (by decide)⟩

/-- C2.  `fecha_relativa` checks the relative keywords in the order
antes-de-ayer/antier, ayer, pasado mañana, mañana, hoy; the first match
wins: a text with a day-before-yesterday phrase gives today − 2, one with
"ayer" but no day-before-yesterday phrase gives today − 1, and
analogously +2 for "pasado mañana", +1 for "mañana", today for "hoy";
none of the keywords gives `none`. -/
theorem c2_fecha_relativa_precedencia (texto : String) (hoy : Int) :
    ((inStr "antes de ayer" (pyLowerStr texto) = true ∨
      inStr "antier" (pyLowerStr texto) = true) →
      fecha_relativa texto hoy = some (isoformat (hoy - 2))) ∧
    (inStr "antes de ayer" (pyLowerStr texto) = false →
     inStr "antier" (pyLowerStr texto) = false →
     inStr "ayer" (pyLowerStr texto) = true →
      fecha_relativa texto hoy = some (isoformat (hoy - 1))) ∧
    (inStr "antes de ayer" (pyLowerStr texto) = false →
     inStr "antier" (pyLowerStr texto) = false →
     inStr "ayer" (pyLowerStr texto) = false →
     inStr "pasado mañana" (pyLowerStr texto) = true →
      fecha_relativa texto hoy = some (isoformat (hoy + 2))) ∧
    (inStr "antes de ayer" (pyLowerStr texto) = false →
     inStr "antier" (pyLowerStr texto) = false →
     inStr "ayer" (pyLowerStr texto) = false →
     inStr "pasado mañana" (pyLowerStr texto) = false →
     inStr "mañana" (pyLowerStr texto) = true →
      fecha_relativa texto hoy = some (isoformat (hoy + 1))) ∧
    (inStr "antes de ayer" (pyLowerStr texto) = false →
     inStr "antier" (pyLowerStr texto) = false →
     inStr "ayer" (pyLowerStr texto) = false →
     inStr "pasado mañana" (pyLowerStr texto) = false →
     inStr "mañana" (pyLowerStr texto) = false →
     inStr "hoy" (pyLowerStr texto) = true →
      fecha_relativa texto hoy = some (isoformat hoy)) ∧
    (inStr "antes de ayer" (pyLowerStr texto) = false →
     inStr "antier" (pyLowerStr texto) = false →
     inStr "ayer" (pyLowerStr texto) = false →
     inStr "pasado mañana" (pyLowerStr texto) = false →
     inStr "mañana" (pyLowerStr texto) = false →
     inStr "hoy" (pyLowerStr texto) = false →
      fecha_relativa texto hoy = none) := by
  refine ⟨?_, ?_, ?_, ?_, ?_, ?_⟩
  · rintro (h | h) <;> simp [fecha_relativa, h]
  all_goals intros; simp [fecha_relativa, *]

/-- Witness for C2: "ayer pagué 500" contains "ayer" and no
day-before-yesterday phrase, so it resolves to today − 1. -/
theorem c2_fecha_relativa_precedencia_witness :
    inStr "antes de ayer" (pyLowerStr "ayer pagué 500") = false ∧
    inStr "antier" (pyLowerStr "ayer pagué 500") = false ∧
    inStr "ayer" (pyLowerStr "ayer pagué 500") = true ∧
    fecha_relativa "ayer pagué 500" 20249 = some (isoformat (20249 - 1)) :=
  ⟨by decide, by decide, by decide,
    (c2_fecha_relativa_precedencia "ayer pagué 500" 20249).2.1
      (by decide) (by decide) (by decide)⟩

/-- `detectar_metodo` only produces values of the fixed vocabulary. -/
theorem detectar_metodo_valido (texto : String) :
    detectar_metodo texto ∈ metodosValidos := by
  simp only [detectar_metodo]
  repeat' split
  all_goals decide

/-- C3.  When `detectar_metodo` finds a signal its result overwrites the
model-proposed method in the final record; the detector's priority is
transfer over cash over card; in particular any text containing a transfer
keyword yields method "transferencia" whatever the model's JSON said. -/
theorem c3_metodo_detector_manda (texto : String) (hoy : Int) (data : ModelData)
    (catalogo : String → Option (String × String)) :
    (detectar_metodo texto ≠ "" →
      (interpretar_gasto_post texto hoy data catalogo).metodo = detectar_metodo texto) ∧
    ((inStr "transferencia" (pyLowerStr texto) = true ∨
      inStr "spei" (pyLowerStr texto) = true ∨
      inStr "transfer" (pyLowerStr texto) = true) →
      detectar_metodo texto = "transferencia") ∧
    (inStr "transferencia" (pyLowerStr texto) = false →
     inStr "spei" (pyLowerStr texto) = false →
     inStr "transfer" (pyLowerStr texto) = false →
     inStr "efectivo" (pyLowerStr texto) = true →
      detectar_metodo texto = "efectivo") ∧
    (inStr "transferencia" (pyLowerStr texto) = false →
     inStr "spei" (pyLowerStr texto) = false →
     inStr "transfer" (pyLowerStr texto) = false →
     inStr "efectivo" (pyLowerStr texto) = false →
     (inStr "tarjeta" (pyLowerStr texto) = true ∨
      inStr "tdd" (pyLowerStr texto) = true ∨
      inStr "tdc" (pyLowerStr texto) = true) →
      detectar_metodo texto = "tarjeta") ∧
    ((inStr "transferencia" (pyLowerStr texto) = true ∨
      inStr "spei" (pyLowerStr texto) = true ∨
      inStr "transfer" (pyLowerStr texto) = true) →
      (interpretar_gasto_post texto hoy data catalogo).metodo = "transferencia") := by
  have hdet : detectar_metodo texto ≠ "" →
      (interpretar_gasto_post texto hoy data catalogo).metodo = detectar_metodo texto := by
    intro h
    simp [interpretar_gasto_post, finalMetodo, h, detectar_metodo_valido]
  have htrans : (inStr "transferencia" (pyLowerStr texto) = true ∨
      inStr "spei" (pyLowerStr texto) = true ∨
      inStr "transfer" (pyLowerStr texto) = true) →
      detectar_metodo texto = "transferencia" := by
    rintro (h | h | h) <;> simp [detectar_metodo, h]
  refine ⟨hdet, htrans, ?_, ?_, ?_⟩
  · intros; simp [detectar_metodo, *]
  · intro h1 h2 h3 h4 h5
    rcases h5 with h | h | h <;> simp [detectar_metodo, *]
  · intro h
    rw [hdet (by rw [htrans h]; decide), htrans h]

/-- Witness for C3: "pagó por transferencia" forces method
"transferencia" although the model's JSON said "tarjeta". -/
theorem c3_metodo_detector_manda_witness :
    inStr "transferencia" (pyLowerStr "pagó por transferencia") = true ∧
    mdlDiceTarjeta.metodo = some "tarjeta" ∧
    (interpretar_gasto_post "pagó por transferencia" 20249 mdlDiceTarjeta
      catalogoVacio).metodo = "transferencia" :=
  ⟨by decide, by decide,
    (c3_metodo_detector_manda "pagó por transferencia" 20249 mdlDiceTarjeta
      catalogoVacio).2.2.2.2 (Or.inl (by decide))⟩

/-- C7.  The catalog build maps each normalized non-empty key of a row
with at least 3 cells to that row's trimmed (category, type); appending a
later row with the same key overwrites the earlier binding while leaving
every other key untouched; in particular the index built from the two
"uber" rows answers with the values of the last one. -/
theorem c7_catalogo_ultima_fila_gana :
    (∀ (filas : List (List String)) (fila : List String),
      3 ≤ fila.length →
      normalizar_desc (fila[0]?.getD "") ≠ "" →
      buildCatalogo (filas ++ [fila]) (normalizar_desc (fila[0]?.getD "")) =
        some (pyStripStr (fila[1]?.getD ""), pyStripStr (fila[2]?.getD ""))) ∧
    (∀ (filas : List (List String)) (fila : List String) (k : String),
      k ≠ normalizar_desc (fila[0]?.getD "") →
      buildCatalogo (filas ++ [fila]) k = buildCatalogo filas k) ∧
    cargar_catalogo [["uber", "Transport", "Ride"], ["uber", "Transport", "RideV2"]]
      "uber" = some ("Transport", "RideV2") := by
  refine ⟨?_, ?_, by decide⟩
  · intro filas fila h3 hk
    simp only [buildCatalogo, List.foldl_append, List.foldl_cons, List.foldl_nil]
    simp [catStep, Nat.not_lt.mpr h3, hk]
  · intro filas fila k hk
    simp only [buildCatalogo, List.foldl_append, List.foldl_cons, List.foldl_nil]
    by_cases h3 : fila.length < 3
    · simp [catStep, h3]
    · by_cases hd : normalizar_desc (fila[0]?.getD "") = ""
      · simp [catStep, h3, hd]
      · simp [catStep, h3, hd, hk]

/-- Witness for C7: a duplicate-key append observed concretely. -/
theorem c7_catalogo_ultima_fila_gana_witness :
    3 ≤ (["uber", "Transport", "RideV2"] : List String).length ∧
    normalizar_desc ((["uber", "Transport", "RideV2"] : List String)[0]?.getD "") ≠ "" ∧
    buildCatalogo ([["uber", "Transport", "Ride"]] ++ [["uber", "Transport", "RideV2"]])
      (normalizar_desc ((["uber", "Transport", "RideV2"] : List String)[0]?.getD "")) =
      some (pyStripStr ((["uber", "Transport", "RideV2"] : List String)[1]?.getD ""),
            pyStripStr ((["uber", "Transport", "RideV2"] : List String)[2]?.getD "")) :=
  ⟨by decide, by decide,
    c7_catalogo_ultima_fila_gana.1 [["uber", "Transport", "Ride"]]
      ["uber", "Transport", "RideV2"] (by decide) (by decide)⟩

/-- C8.  When the model call throws, or its output yields no parseable
JSON object, the failure is atomic: interpretation returns the error, the
ledger receives no row for the message, and the webhook answers with the
single generic failure message. -/
theorem c8_fallo_atomico (body : String) (hoy : Int)
    (mr : Except Unit String) (jp : String → Option ModelData)
    (catalogo : String → Option (String × String))
    (sheet : Option (List (List Cell)))
    (h : mr = .error () ∨ ∃ raw, mr = .ok raw ∧ jp (extractJson raw) = none) :
    (∃ e, interpretar_gasto body hoy mr jp catalogo = .error e) ∧
    webhook_whatsapp body hoy mr jp catalogo sheet = (mensajeError, sheet) := by
  have hint : interpretar_gasto body hoy mr jp catalogo = .error () := by
    rcases h with h | ⟨raw, hr, hj⟩
    · rw [h]; rfl
    · rw [hr]; simp [interpretar_gasto, hj]
  refine ⟨⟨(), hint⟩, ?_⟩
  unfold webhook_whatsapp registrar_gasto
  cases sheet <;> simp [hint]

/-- Witness for C8: a thrown model call leaves the ledger as it was and
answers the generic message. -/
theorem c8_fallo_atomico_witness :
    (∃ e, interpretar_gasto "hola" 0 (Except.error ()) jsonParseFalla
      catalogoVacio = .error e) ∧
    webhook_whatsapp "hola" 0 (Except.error ()) jsonParseFalla catalogoVacio
      (some []) = (mensajeError, some []) :=
  c8_fallo_atomico "hola" 0 (Except.error ()) jsonParseFalla catalogoVacio
    (some []) (Or.inl rfl)

/-- C4 counterexample.  The claim says the card field stays empty when
the text mentions the card keyword and the model left it empty; but for
"pago con tarjeta" (model card empty) app.py line 348 backfills it from
`extraer_tarjeta_regex`, whose `\bcon\s+(...)` branch captures the very
word "tarjeta" — the finalized field is "tarjeta", not the empty string. -/
theorem c4_tarjeta_no_queda_vacia_counterexample :
    inStr "tarjeta" (pyLowerStr "pago con tarjeta") = true ∧
    mdlSinTarjeta.tarjeta = none ∧
    (interpretar_gasto_post "pago con tarjeta" 20249 mdlSinTarjeta
      catalogoVacio).tarjeta = "tarjeta" ∧
    (interpretar_gasto_post "pago con tarjeta" 20249 mdlSinTarjeta
      catalogoVacio).tarjeta ≠ "" :=
  ⟨by decide, by decide, by decide, by decide⟩

/-- C4 amended.  When the text mentions the card keyword and the model
left the card field empty, the finalized card_or_bank is backfilled with
`extraer_tarjeta_regex(text)` (the token after "tarjeta", else the
boundary-delimited token after "con" unless it contains a transfer/cash
word, else empty) — it is not left empty unconditionally. -/
theorem c4_tarjeta_backfill (texto : String) (hoy : Int) (data : ModelData)
    (catalogo : String → Option (String × String))
    (h1 : inStr "tarjeta" (pyLowerStr texto) = true)
    (h2 : pyStripStr (data.tarjeta.getD "") = "") :
    (interpretar_gasto_post texto hoy data catalogo).tarjeta =
      extraer_tarjeta_regex texto := by
  simp [interpretar_gasto_post, finalTarjeta, h1, h2]

/-- Witness for the amended C4 at "tarjeta BBVA": the backfill yields the
extracted issuer. -/
theorem c4_tarjeta_backfill_witness :
    inStr "tarjeta" (pyLowerStr "300 con tarjeta BBVA") = true ∧
    pyStripStr (mdlSinTarjeta.tarjeta.getD "") = "" ∧
    (interpretar_gasto_post "300 con tarjeta BBVA" 20249 mdlSinTarjeta
      catalogoVacio).tarjeta = extraer_tarjeta_regex "300 con tarjeta BBVA" :=
  ⟨by decide, by decide,
    c4_tarjeta_backfill "300 con tarjeta BBVA" 20249 mdlSinTarjeta catalogoVacio
      (by decide) (by decide)⟩

/-- Results of `montoAt` are non-negative: the regex captures an unsigned
digit run with an optional unsigned fraction. -/
theorem montoAt_nonneg (pv : Option Char) (s : List Char) (q : ℚ)
    (h : montoAt pv s = some q) : 0 ≤ q := by
  simp only [montoAt] at h
  split at h
  · exact absurd h (by simp)
  · split at h
    · exact absurd h (by simp)
    · split at h
      · split at h
        · obtain rfl : (natOfDigits (s.takeWhile isDigitChar) : ℚ) = q :=
            Option.some.inj h
          positivity
        · split at h
          · obtain rfl := Option.some.inj h
            unfold ratOfParts
            positivity
          · obtain rfl : (natOfDigits (s.takeWhile isDigitChar) : ℚ) = q :=
              Option.some.inj h
            positivity
      · split at h
        · obtain rfl : (natOfDigits (s.takeWhile isDigitChar) : ℚ) = q :=
            Option.some.inj h
          positivity
        · exact absurd h (by simp)

/-- A property guaranteed by the position matcher transfers to the result
of the scan. -/
theorem posFind_some_prop {α : Type} (f : Option Char → List Char → Option α)
    (P : α → Prop) (hf : ∀ pv s a, f pv s = some a → P a) :
    ∀ (pv : Option Char) (l : List Char) (a : α), posFind f pv l = some a → P a := by
  intro pv l
  induction l generalizing pv with
  | nil => intro a h; exact hf _ _ _ h
  | cons c cs ih =>
    intro a h
    unfold posFind at h
    cases hfc : f pv (c :: cs) with
    | some b =>
      rw [hfc] at h
      simp only [Option.orElse] at h
      exact hf _ _ _ (hfc.trans h)
    | none =>
      rw [hfc] at h
      simp only [Option.orElse] at h
      exact ih _ _ h

/-- The regex amount fallback never returns a negative value. -/
theorem extraer_monto_regex_nonneg (texto : String) :
    0 ≤ extraer_monto_regex texto := by
  simp only [extraer_monto_regex]
  split
  · exact posFind_some_prop montoAt (0 ≤ ·) montoAt_nonneg _ _ _ (by assumption)
  · exact le_refl 0

/-- C9 counterexample.  The claim says every finalized amount is
non-negative whatever the model proposes; but a model reply with
`monto = -50` passes the coercion untouched, is non-zero so the fallback
does not fire, and the record carries −50. -/
theorem c9_monto_no_negativo_counterexample :
    coerceMonto mdlMontoNegativo.monto = -50 ∧
    (interpretar_gasto_post "gasto variado" 20249 mdlMontoNegativo
      catalogoVacio).monto = -50 ∧
    (interpretar_gasto_post "gasto variado" 20249 mdlMontoNegativo
      catalogoVacio).monto < 0 :=
  ⟨by decide, by decide, by decide⟩

/-- C9 amended.  When the coerced model amount is non-negative (in
particular whenever it is missing, malformed — both coerce to 0 — or a
non-negative number), the finalized amount is non-negative: a zero
coercion falls back to the regex extraction, which is itself always
non-negative and defaults to 0.  A negative model-proposed number,
however, passes through unclamped. -/
theorem c9_monto_no_negativo_amended (texto : String) (hoy : Int)
    (data : ModelData) (catalogo : String → Option (String × String))
    (h : 0 ≤ coerceMonto data.monto) :
    0 ≤ (interpretar_gasto_post texto hoy data catalogo).monto ∧
    0 ≤ extraer_monto_regex texto := by
  refine ⟨?_, extraer_monto_regex_nonneg texto⟩
  show 0 ≤ finalMonto texto data
  simp only [finalMonto]
  split
  · exact extraer_monto_regex_nonneg texto
  · exact h

/-- Witness for the amended C9: a model reply whose amount coerces to 80
yields a non-negative record amount. -/
theorem c9_monto_no_negativo_amended_witness :
    0 ≤ coerceMonto mdlEjemplo.monto ∧
    0 ≤ (interpretar_gasto_post "gaste 80 en cafe" 20249 mdlEjemplo
      catalogoVacio).monto ∧
    0 ≤ extraer_monto_regex "gaste 80 en cafe" :=
  ⟨by decide,
   (c9_monto_no_negativo_amended "gaste 80 en cafe" 20249 mdlEjemplo
      catalogoVacio (by decide)).1,
   (c9_monto_no_negativo_amended "gaste 80 en cafe" 20249 mdlEjemplo
      catalogoVacio (by decide)).2⟩

/-- C10 counterexample.  The claim says the first maximal digit run is
parsed; for "x3" that run is "3" with value 3, but the pattern's
leading `\b` rejects a run preceded by a word character, so the code
returns 0. -/
theorem c10_monto_regex_counterexample :
    extraer_monto_regex "x3" = 0 ∧ (0 : ℚ) ≠ 3 :=
  ⟨by decide, by decide⟩

/-- `montoAt` cannot match on a subject without digits. -/
theorem montoAt_none_of_no_digit (pv : Option Char) (s : List Char)
    (h : s.all (fun c => !isDigitChar c) = true) : montoAt pv s = none := by
  have htw : s.takeWhile isDigitChar = [] := by
    cases s with
    | nil => rfl
    | cons c cs =>
      rw [List.all_cons, Bool.and_eq_true] at h
      have hc : isDigitChar c = false := by simpa using h.1
      simp [List.takeWhile_cons, hc]
  simp [montoAt, htw]

/-- The scan finds no amount in a digit-free subject. -/
theorem posFind_monto_none (pv : Option Char) (l : List Char)
    (h : l.all (fun c => !isDigitChar c) = true) :
    posFind montoAt pv l = none := by
  induction l generalizing pv with
  | nil => exact montoAt_none_of_no_digit _ _ h
  | cons c cs ih =>
    unfold posFind
    rw [montoAt_none_of_no_digit _ _ h]
    simp only [Option.orElse]
    exact ih _ (by rw [List.all_cons, Bool.and_eq_true] at h; exact h.2)

/-- C10 amended.  `extraer_monto_regex` deletes every comma before
matching and parses the first digit run that starts at a word boundary
(with its optional boundary-checked decimal fraction); a run directly
preceded by a letter, digit or underscore is not matched.  It returns 0
when the text has no digit at all; deleting commas first reads a
decimal-comma amount as concatenated digits: "45,5" gives 455 and
"1,200" gives 1200. -/
theorem c10_monto_regex_amended :
    extraer_monto_regex "45,5" = 455 ∧
    extraer_monto_regex "1,200" = 1200 ∧
    ∀ texto : String, texto.data.all (fun c => !isDigitChar c) = true →
      extraer_monto_regex texto = 0 := by
  refine ⟨by decide, by decide, ?_⟩
  intro texto h
  simp only [extraer_monto_regex]
  rw [posFind_monto_none _ _ (by
    rw [List.all_eq_true] at h ⊢
    exact fun c hc => h c (List.mem_of_mem_filter hc))]

/-- Witness for the amended C10: a digit-free message falls back to 0. -/
theorem c10_monto_regex_amended_witness :
    ("sin numero".data.all (fun c => !isDigitChar c)) = true ∧
    extraer_monto_regex "sin numero" = 0 :=
  ⟨by decide, c10_monto_regex_amended.2.2 "sin numero" (by decide)⟩

/-- C6 counterexample.  The claim says the finalized description never
normalizes to a payer token; but for "pago en en dani" with an empty
model description, the merchant fallback fires, its "en X" branch
captures the candidate "en dani" — whose own normalization is not a
payer token, so the rejection check passes — and `limpiar_descripcion`
then strips the filler "en ", leaving exactly "Dani". -/
theorem c6_descripcion_pagador_counterexample :
    mdlSinDescripcion.descripcion = none ∧
    extraer_merchant_regex "pago en en dani" = "Dani" ∧
    (interpretar_gasto_post "pago en en dani" 20249 mdlSinDescripcion
      catalogoVacio).descripcion = "Dani" ∧
    normalizar_desc "Dani" = "dani" ∧ payersNorm.contains "dani" = true :=
  ⟨by decide, by decide, by decide, by decide, by decide⟩

/-- C6 amended.  When the cleaned model description is empty or
normalizes to a payer token, the finalized description is replaced by
`extraer_merchant_regex(text)`; the extractor rejects (returns empty) any
candidate whose own pre-cleaning normalization is exactly a payer token —
as "pago en dani" and the bare "dani" show — but its subsequent cleaning
step can still hand back a string that normalizes to a payer name. -/
theorem c6_descripcion_fallback (texto : String) (hoy : Int) (data : ModelData)
    (catalogo : String → Option (String × String)) :
    (descripcionesVacias.contains
        (normalizar_desc (limpiar_descripcion (data.descripcion.getD ""))) = true →
      (interpretar_gasto_post texto hoy data catalogo).descripcion =
        extraer_merchant_regex texto) ∧
    extraer_merchant_regex "pago en dani" = "" ∧
    extraer_merchant_regex "dani" = "" := by
  refine ⟨?_, by decide, by decide⟩
  intro h
  have h' : normalizar_desc (limpiar_descripcion (data.descripcion.getD "")) ∈
      descripcionesVacias := by simpa using h
  simp [interpretar_gasto_post, finalDescripcion, h']

/-- Witness for the amended C6: an empty model description is replaced by
the merchant extraction of the text. -/
theorem c6_descripcion_fallback_witness :
    descripcionesVacias.contains
      (normalizar_desc (limpiar_descripcion (mdlSinDescripcion.descripcion.getD ""))) = true ∧
    (interpretar_gasto_post "500 en Walmart" 20249 mdlSinDescripcion
      catalogoVacio).descripcion = extraer_merchant_regex "500 en Walmart" :=
  ⟨by decide,
    (c6_descripcion_fallback "500 en Walmart" 20249 mdlSinDescripcion
      catalogoVacio).1 (by decide)⟩

/-! ### Character-level case lemmas (for C5) -/

/-- `pyLowerChar` either fixes its argument or lands in the table's
lowercase column. -/
theorem pyLowerChar_eq_or (c : Char) :
    pyLowerChar c = c ∨ pyLowerChar c ∈ lowerTable.map Prod.snd := by
  unfold pyLowerChar
  cases hf : lowerTable.find? (fun p => p.1 == c) with
  | none => left; rfl
  | some p => right; exact List.mem_map_of_mem _ (List.mem_of_find?_eq_some hf)

/-- Lower-casing is idempotent on the embedded alphabet. -/
theorem pyLowerChar_idem (c : Char) :
    pyLowerChar (pyLowerChar c) = pyLowerChar c := by
  rcases pyLowerChar_eq_or c with h | h
  · rw [h]; exact h
  · have hall : ∀ d ∈ lowerTable.map Prod.snd, pyLowerChar d = d := by decide
    exact hall _ h

/-- Title-casing a lowercase-fixed character and lower-casing again gives
the character back. -/
theorem pyLowerChar_pyUpperChar (c : Char) (h : pyLowerChar c = c) :
    pyLowerChar (pyUpperChar c) = c := by
  unfold pyUpperChar
  cases hf : upperTable.find? (fun p => p.1 == c) with
  | none => exact h
  | some p =>
    have hp : p ∈ upperTable := List.mem_of_find?_eq_some hf
    have hc : p.1 = c := by have h1 := List.find?_some hf; simpa using h1
    have hall : ∀ q ∈ upperTable, pyLowerChar q.2 = q.1 := by decide
    rw [hall _ hp, hc]

/-! ### Run/word lemmas (for C5) -/

/-- Characters of a run come from the accumulator or the scanned list. -/
theorem runsOfGo_mem_chars (p : Char → Bool) :
    ∀ (l acc w : List Char), w ∈ runsOfGo p acc l → ∀ c ∈ w, c ∈ acc ∨ c ∈ l := by
  intro l
  induction l with
  | nil =>
    intro acc w hw c hc
    unfold runsOfGo at hw
    split at hw
    · cases hw
    · rw [List.mem_singleton] at hw
      subst hw
      exact Or.inl (List.mem_reverse.mp hc)
  | cons d ds ih =>
    intro acc w hw c hc
    unfold runsOfGo at hw
    split at hw
    · rcases ih _ _ hw c hc with h | h
      · rcases List.mem_cons.mp h with h | h
        · exact Or.inr (h ▸ List.mem_cons_self d ds)
        · exact Or.inl h
      · exact Or.inr (List.mem_cons_of_mem d h)
    · split at hw
      · rcases ih _ _ hw c hc with h | h
        · cases h
        · exact Or.inr (List.mem_cons_of_mem d h)
      · rcases List.mem_cons.mp hw with h | h
        · subst h
          exact Or.inl (List.mem_reverse.mp hc)
        · rcases ih _ _ h c hc with h2 | h2
          · cases h2
          · exact Or.inr (List.mem_cons_of_mem d h2)

/-- Every emitted run is non-empty and all its characters satisfy `p`. -/
theorem runsOfGo_words (p : Char → Bool) :
    ∀ (l acc : List Char), (∀ c ∈ acc, p c = true) →
      ∀ w ∈ runsOfGo p acc l, w ≠ [] ∧ ∀ c ∈ w, p c = true := by
  intro l
  induction l with
  | nil =>
    intro acc hacc w hw
    unfold runsOfGo at hw
    split at hw
    · cases hw
    · rw [List.mem_singleton] at hw
      subst hw
      rename_i hne
      exact ⟨by simpa using hne, fun c hc => hacc c (List.mem_reverse.mp hc)⟩
  | cons d ds ih =>
    intro acc hacc w hw
    unfold runsOfGo at hw
    split at hw
    · rename_i hd
      refine ih _ ?_ w hw
      intro c hc
      rcases List.mem_cons.mp hc with h | h
      · exact h ▸ hd
      · exact hacc c h
    · split at hw
      · exact ih _ (by intro c hc; cases hc) w hw
      · rcases List.mem_cons.mp hw with h | h
        · subst h
          rename_i hne
          exact ⟨by simpa using hne, fun c hc => hacc c (List.mem_reverse.mp hc)⟩
        · exact ih _ (by intro c hc; cases hc) w h

/-- Unfolding equation of `runsOfGo` on a cons cell. -/
theorem runsOfGo_cons (p : Char → Bool) (acc : List Char) (d : Char) (ds : List Char) :
    runsOfGo p acc (d :: ds) =
      if p d then runsOfGo p (d :: acc) ds
      else if acc = [] then runsOfGo p [] ds
      else acc.reverse :: runsOfGo p [] ds := rfl

/-- Scanning a run of `p`-characters just moves it into the accumulator. -/
theorem runsOfGo_append_run (p : Char → Bool) :
    ∀ (w acc r : List Char), (∀ c ∈ w, p c = true) →
      runsOfGo p acc (w ++ r) = runsOfGo p (w.reverse ++ acc) r := by
  intro w
  induction w with
  | nil => intro acc r _; rfl
  | cons d ds ih =>
    intro acc r hw
    rw [List.cons_append, runsOfGo_cons, hw d (List.mem_cons_self d ds)]
    simp only [if_true]
    rw [ih (d :: acc) r (fun c hc => hw c (List.mem_cons_of_mem d hc))]
    congr 1
    simp [List.reverse_cons, List.append_assoc]

/-- A separator after a non-empty accumulator emits the accumulated run. -/
theorem runsOfGo_sep (p : Char → Bool) (acc r : List Char)
    (hacc : acc ≠ []) (hp : p ' ' = false) :
    runsOfGo p acc (' ' :: r) = acc.reverse :: runsOfGo p [] r := by
  rw [runsOfGo_cons, hp]
  simp [hacc]

/-- Splitting the space-joined list of non-empty separator-free words
gives the words back. -/
theorem runsOf_joinWords (p : Char → Bool) (hp : p ' ' = false) :
    ∀ ws : List (List Char),
      (∀ w ∈ ws, w ≠ [] ∧ ∀ c ∈ w, p c = true) →
      runsOf p (joinWords ws) = ws := by
  intro ws
  induction ws with
  | nil => intro _; rfl
  | cons w ws ih =>
    intro hws
    obtain ⟨hwne, hw⟩ := hws w (List.mem_cons_self w ws)
    cases ws with
    | nil =>
      show runsOfGo p [] (joinWords [w]) = [w]
      have : joinWords [w] = w ++ [] := by simp [joinWords]
      rw [this, runsOfGo_append_run p w [] [] hw]
      unfold runsOfGo
      simp [hwne]
    | cons w2 ws2 =>
      show runsOfGo p [] (joinWords (w :: w2 :: ws2)) = w :: w2 :: ws2
      have hj : joinWords (w :: w2 :: ws2) = w ++ ' ' :: joinWords (w2 :: ws2) := rfl
      rw [hj, runsOfGo_append_run p w [] (' ' :: joinWords (w2 :: ws2)) hw,
        List.append_nil, runsOfGo_sep p _ _ (by simpa using hwne) hp,
        List.reverse_reverse]
      exact congrArg _ (ih (fun v hv => hws v (List.mem_cons_of_mem w hv)))

/-! ### Join and lower-casing lemmas (for C5) -/

/-- Lower-casing a fixed list is the identity. -/
theorem pyLowerL_fix (l : List Char) (h : ∀ c ∈ l, pyLowerChar c = c) :
    pyLowerL l = l := by
  unfold pyLowerL
  rw [List.map_congr_left h]
  simp

/-- Lower-casing distributes over the space-join. -/
theorem pyLowerL_joinWords :
    ∀ ls : List (List Char), pyLowerL (joinWords ls) = joinWords (ls.map pyLowerL) := by
  intro ls
  induction ls with
  | nil => rfl
  | cons w ws ih =>
    cases ws with
    | nil => rfl
    | cons w2 ws2 =>
      show pyLowerL (w ++ ' ' :: joinWords (w2 :: ws2)) = _
      unfold pyLowerL
      rw [List.map_append, List.map_cons]
      show _ ++ pyLowerChar ' ' :: pyLowerL (joinWords (w2 :: ws2)) = _
      rw [(by decide : pyLowerChar ' ' = ' '), ih]
      rfl

/-- Lower-casing undoes the capitalization of a lowercase-fixed word. -/
theorem pyLowerL_pyCapitalize (w : List Char) (h : ∀ c ∈ w, pyLowerChar c = c) :
    pyLowerL (pyCapitalize w) = w := by
  cases w with
  | nil => rfl
  | cons c r =>
    show pyLowerChar (pyUpperChar c) :: pyLowerL (pyLowerL r) = c :: r
    have hr : pyLowerL r = r :=
      pyLowerL_fix r (fun d hd => h d (List.mem_cons_of_mem c hd))
    rw [pyLowerChar_pyUpperChar c (h c (List.mem_cons_self c r)), hr, hr]

/-! ### Character-origin lemmas (for C5) -/

/-- Characters survive `stripWsL`. -/
theorem mem_stripWsL {c : Char} {l : List Char} (h : c ∈ stripWsL l) : c ∈ l := by
  unfold stripWsL at h
  rw [List.mem_reverse] at h
  have h2 := (List.dropWhile_sublist _).mem h
  rw [List.mem_reverse] at h2
  exact (List.dropWhile_sublist _).mem h2

/-- Characters survive the anchored payer-head removal. -/
theorem mem_subAltHead {c : Char} :
    ∀ (alts : List (List Char)) (d : List Char), c ∈ subAltHead alts d → c ∈ d := by
  intro alts
  induction alts with
  | nil => intro d h; exact h
  | cons w ws ih =>
    intro d h
    unfold subAltHead at h
    split at h
    · exact (List.drop_sublist _ _).mem h
    · exact ih d h

/-- Characters survive the cascaded strip-a-prefix fold. -/
theorem mem_foldStrip {c : Char} :
    ∀ (ps : List (List Char)) (d : List Char),
      c ∈ ps.foldl
        (fun d p => if p.isPrefixOf d then stripWsL (d.drop p.length) else d) d →
      c ∈ d := by
  intro ps
  induction ps with
  | nil => intro d h; exact h
  | cons p ps ih =>
    intro d h
    rw [List.foldl_cons] at h
    have h2 := ih _ h
    split at h2
    · exact (List.drop_sublist _ _).mem (mem_stripWsL h2)
    · exact h2

/-- Characters of the cleaning core come from its input. -/
theorem mem_cleanCore {c : Char} {d : List Char} (h : c ∈ cleanCore d) : c ∈ d := by
  simp only [cleanCore] at h
  exact mem_subAltHead _ _ (mem_stripWsL (mem_foldStrip _ _ (mem_foldStrip _ _ h)))

/-- Characters of a space-join come from a word or are the separator. -/
theorem mem_joinWords {c : Char} :
    ∀ ls : List (List Char), c ∈ joinWords ls → (∃ w ∈ ls, c ∈ w) ∨ c = ' ' := by
  intro ls
  induction ls with
  | nil => intro h; cases h
  | cons w ws ih =>
    cases ws with
    | nil =>
      intro h
      exact Or.inl ⟨w, List.mem_singleton.mpr rfl, h⟩
    | cons w2 ws2 =>
      intro h
      rcases List.mem_append.mp h with h | h
      · exact Or.inl ⟨w, List.mem_cons_self _ _, h⟩
      · rcases List.mem_cons.mp h with h | h
        · exact Or.inr h
        · rcases ih h with ⟨v, hv, hc⟩ | h
          · exact Or.inl ⟨v, List.mem_cons_of_mem _ hv, hc⟩
          · exact Or.inr h

/-- Every character of a normalized string is fixed by lower-casing. -/
theorem mem_normalizarL_fix {c : Char} {l : List Char}
    (h : c ∈ normalizarL l) : pyLowerChar c = c := by
  unfold normalizarL at h
  rcases mem_joinWords _ h with ⟨w, hw, hc⟩ | rfl
  · rcases runsOfGo_mem_chars _ _ _ _ hw c hc with h0 | h0
    · cases h0
    · rcases List.mem_map.mp h0 with ⟨z, _, rfl⟩
      exact pyLowerChar_idem z
  · decide

/-- C5 counterexample.  `limpiar_descripcion` is not idempotent: each
filler prefix of the list is tested once, in order, so a repeated filler
survives the single pass — "en en oxxo" cleans to "En Oxxo", and cleaning
that again strips the surviving "en " and gives "Oxxo". -/
theorem c5_limpiar_no_idempotente_counterexample :
    limpiar_descripcion "en en oxxo" = "En Oxxo" ∧
    limpiar_descripcion (limpiar_descripcion "en en oxxo") = "Oxxo" ∧
    limpiar_descripcion (limpiar_descripcion "en en oxxo") ≠
      limpiar_descripcion "en en oxxo" :=
  ⟨by decide, by decide, by decide⟩

/-- Definitional equation of `limpiar_descripcion` at `String` level. -/
theorem limpiar_descripcion_def (s : String) :
    limpiar_descripcion s = (⟨limpiarL s.data⟩ : String) := rfl

/-- The character list of a packed string. -/
theorem data_mk (l : List Char) : (⟨l⟩ : String).data = l := rfl

/-- C5 amended.  `limpiar_descripcion` is idempotent on every input whose
cleaned output, re-normalized, is itself left unchanged by the cleaning
core — that is, whenever no payer token, filler prefix or article
survives at the head of the output.  (In general idempotence fails, as
the repeated-filler counterexample shows.) -/
theorem c5_limpiar_idempotente_condicional (x : String)
    (h : cleanCore (normalizarL (limpiarL x.data)) = normalizarL (limpiarL x.data)) :
    limpiar_descripcion (limpiar_descripcion x) = limpiar_descripcion x := by
  have hgood : ∀ w ∈ splitWs (cleanCore (normalizarL x.data)),
      w ≠ [] ∧ ∀ c ∈ w, (!isPySpace c) = true :=
    runsOfGo_words _ _ _ (fun c hc => absurd hc (List.not_mem_nil c))
  have hlf : ∀ w ∈ splitWs (cleanCore (normalizarL x.data)), ∀ c ∈ w, pyLowerChar c = c := by
    intro w hw c hc
    rcases runsOfGo_mem_chars _ _ _ _ hw c hc with h0 | h0
    · cases h0
    · exact mem_normalizarL_fix (mem_cleanCore h0)
  have h1 : pyLowerL (joinWords ((splitWs (cleanCore (normalizarL x.data))).map pyCapitalize)) =
      joinWords (splitWs (cleanCore (normalizarL x.data))) := by
    rw [pyLowerL_joinWords, List.map_map]
    exact congrArg joinWords
      ((List.map_congr_left (fun w hw => pyLowerL_pyCapitalize w (hlf w hw))).trans
        (by simp))
  have h2 : splitWs (joinWords (splitWs (cleanCore (normalizarL x.data)))) =
      splitWs (cleanCore (normalizarL x.data)) :=
    runsOf_joinWords _ (by decide) _ hgood
  have h3 : normalizarL (limpiarL x.data) =
      joinWords (splitWs (cleanCore (normalizarL x.data))) := by
    show joinWords (splitWs (pyLowerL
      (joinWords ((splitWs (cleanCore (normalizarL x.data))).map pyCapitalize)))) = _
    rw [h1, h2]
  have hlist : limpiarL (limpiarL x.data) = limpiarL x.data := by
    show joinWords ((splitWs (cleanCore (normalizarL (limpiarL x.data)))).map pyCapitalize) =
      limpiarL x.data
    rw [h, h3, h2]
    rfl
  rw [limpiar_descripcion_def x, limpiar_descripcion_def, data_mk]
  exact congrArg String.mk hlist

set_option maxRecDepth 4000 in
/-- Witness for the amended C5: "compra en oxxo" cleans to "Oxxo", whose
re-normalization the cleaning core fixes, so a second pass is the
identity. -/
theorem c5_limpiar_idempotente_condicional_witness :
    cleanCore (normalizarL (limpiarL "compra en oxxo".data)) =
      normalizarL (limpiarL "compra en oxxo".data) ∧
    limpiar_descripcion (limpiar_descripcion "compra en oxxo") =
      limpiar_descripcion "compra en oxxo" :=
  ⟨by decide, c5_limpiar_idempotente_condicional "compra en oxxo" (by decide)⟩

end App
